import Mathlib

/-
  Verification of the editor-framework orchestration layer.

  Shallow embedding of the code in src/lib/main/editor-window.js
  (the EditorWindow class with its request/reply IPC session table, and
  the EditorPanel module with its panel-to-window dock table), plus a
  spec-level model of the package loader (whose implementation is not in
  the sources; only its test suite is).

  JavaScript objects used as string-keyed dictionaries are embedded as
  association lists in insertion order (for the `_replyCallbacks` table the
  keys are the decimal numerals of monotonically allocated session ids, so
  JavaScript's ascending integer-key iteration order coincides with
  insertion order).  `delete obj[k]` removes the key; `obj[k] = v`
  overwrites in place or appends a fresh key.
-/

set_option autoImplicit false

namespace EditorFramework

/-! ### Association lists (JS objects used as dictionaries) -/

section Assoc

variable {α : Type} {β : Type} [DecidableEq α]

/-- Lookup `obj[k]`: the value stored under the first matching key. -/
def assocFind : List (α × β) → α → Option β
  | [], _ => none
  | (k', v) :: rest, k => if k' = k then some v else assocFind rest k

/-- JavaScript `delete obj[k]`: remove every binding of key `k`. -/
def assocErase : List (α × β) → α → List (α × β)
  | [], _ => []
  | (k', v) :: rest, k =>
    if k' = k then assocErase rest k else (k', v) :: assocErase rest k

/-- JavaScript `obj[k] = v`: overwrite in place, or append a fresh key. -/
def assocSet : List (α × β) → α → β → List (α × β)
  | [], k, v => [(k, v)]
  | (k', v') :: rest, k, v =>
    if k' = k then (k, v) :: rest else (k', v') :: assocSet rest k v

/-- Keys of the dictionary, in iteration order. -/
def assocKeys (l : List (α × β)) : List α := l.map Prod.fst

@[simp] theorem assocFind_nil (k : α) : assocFind ([] : List (α × β)) k = none := rfl

@[simp] theorem assocFind_cons (k' k : α) (v : β) (rest : List (α × β)) :
    assocFind ((k', v) :: rest) k = if k' = k then some v else assocFind rest k := rfl

@[simp] theorem assocErase_nil (k : α) : assocErase ([] : List (α × β)) k = [] := rfl

@[simp] theorem assocErase_cons (k' k : α) (v : β) (rest : List (α × β)) :
    assocErase ((k', v) :: rest) k =
      if k' = k then assocErase rest k else (k', v) :: assocErase rest k := rfl

theorem assocFind_eq_none_of_not_mem {l : List (α × β)} {k : α}
    (h : k ∉ assocKeys l) : assocFind l k = none := by
  induction l with
  | nil => rfl
  | cons kv rest ih =>
    obtain ⟨k', v⟩ := kv
    simp only [assocKeys, List.map_cons, List.mem_cons] at h
    push_neg at h
    simp only [assocFind_cons, if_neg (Ne.symm h.1), ih (by simpa [assocKeys] using h.2)]

theorem assocFind_isSome_of_mem {l : List (α × β)} {k : α}
    (h : k ∈ assocKeys l) : (assocFind l k).isSome := by
  induction l with
  | nil => simp [assocKeys] at h
  | cons kv rest ih =>
    obtain ⟨k', v⟩ := kv
    by_cases hk : k' = k
    · simp [assocFind_cons, hk]
    · simp only [assocKeys, List.map_cons, List.mem_cons] at h
      rcases h with h | h
      · exact absurd h.symm hk
      · simpa [assocFind_cons, hk] using ih h

theorem mem_assocKeys_of_find {l : List (α × β)} {k : α} {v : β}
    (h : assocFind l k = some v) : k ∈ assocKeys l := by
  by_contra hm
  rw [assocFind_eq_none_of_not_mem hm] at h
  exact Option.noConfusion h

theorem assocKeys_erase_subset (l : List (α × β)) (k : α) :
    ∀ x ∈ assocKeys (assocErase l k), x ∈ assocKeys l := by
  induction l with
  | nil => intro x hx; exact hx
  | cons kv rest ih =>
    obtain ⟨k', v⟩ := kv
    intro x hx
    by_cases hk : k' = k
    · simp only [assocErase_cons, if_pos hk] at hx
      exact List.mem_cons_of_mem _ (ih x hx)
    · simp only [assocErase_cons, if_neg hk, assocKeys, List.map_cons, List.mem_cons] at hx
      rcases hx with hx | hx
      · simp [assocKeys, hx]
      · exact List.mem_cons_of_mem _ (ih x hx)

theorem not_mem_assocKeys_erase (l : List (α × β)) (k : α) :
    k ∉ assocKeys (assocErase l k) := by
  induction l with
  | nil => simp [assocErase, assocKeys]
  | cons kv rest ih =>
    obtain ⟨k', v⟩ := kv
    by_cases hk : k' = k
    · simpa [assocErase_cons, if_pos hk] using ih
    · simp only [assocErase_cons, if_neg hk, assocKeys, List.map_cons, List.mem_cons]
      push_neg
      exact ⟨fun h => hk h.symm, ih⟩

theorem assocKeys_erase_nodup {l : List (α × β)} (k : α)
    (h : (assocKeys l).Nodup) : (assocKeys (assocErase l k)).Nodup := by
  induction l with
  | nil => simp [assocErase, assocKeys]
  | cons kv rest ih =>
    obtain ⟨k', v⟩ := kv
    simp only [assocKeys, List.map_cons, List.nodup_cons] at h
    by_cases hk : k' = k
    · simpa [assocErase_cons, if_pos hk] using ih h.2
    · simp only [assocErase_cons, if_neg hk, assocKeys, List.map_cons, List.nodup_cons]
      exact ⟨fun hm => h.1 (assocKeys_erase_subset rest k _ hm), ih h.2⟩

theorem assocFind_erase_self (l : List (α × β)) (k : α) :
    assocFind (assocErase l k) k = none :=
  assocFind_eq_none_of_not_mem (not_mem_assocKeys_erase l k)

theorem assocErase_of_not_mem {l : List (α × β)} {k : α}
    (h : k ∉ assocKeys l) : assocErase l k = l := by
  induction l with
  | nil => rfl
  | cons kv rest ih =>
    obtain ⟨k', v⟩ := kv
    simp only [assocKeys, List.map_cons, List.mem_cons] at h
    push_neg at h
    simp only [assocErase_cons, if_neg (Ne.symm h.1), ih (by simpa [assocKeys] using h.2)]

omit [DecidableEq α] in
theorem assocKeys_append (l₁ l₂ : List (α × β)) :
    assocKeys (l₁ ++ l₂) = assocKeys l₁ ++ assocKeys l₂ := by
  simp [assocKeys]

theorem assocFind_append_right {l₁ : List (α × β)} (l₂ : List (α × β)) {k : α}
    (h : k ∉ assocKeys l₁) : assocFind (l₁ ++ l₂) k = assocFind l₂ k := by
  induction l₁ with
  | nil => rfl
  | cons kv rest ih =>
    obtain ⟨k', v⟩ := kv
    simp only [assocKeys, List.map_cons, List.mem_cons] at h
    push_neg at h
    simp only [List.cons_append, assocFind_cons, if_neg (Ne.symm h.1),
      ih (by simpa [assocKeys] using h.2)]

theorem assocSet_of_not_mem {l : List (α × β)} {k : α} (v : β)
    (h : k ∉ assocKeys l) : assocSet l k v = l ++ [(k, v)] := by
  induction l with
  | nil => rfl
  | cons kv rest ih =>
    obtain ⟨k', v'⟩ := kv
    simp only [assocKeys, List.map_cons, List.mem_cons] at h
    push_neg at h
    simp only [assocSet, if_neg (Ne.symm h.1), List.cons_append,
      ih (by simpa [assocKeys] using h.2)]

theorem assocFind_assocSet_self (l : List (α × β)) (k : α) (v : β) :
    assocFind (assocSet l k v) k = some v := by
  induction l with
  | nil => simp [assocSet, assocFind]
  | cons kv rest ih =>
    obtain ⟨k', v'⟩ := kv
    by_cases hk : k' = k
    · simp [assocSet, if_pos hk, assocFind]
    · simp [assocSet, if_neg hk, assocFind, if_neg hk, ih]

theorem not_mem_assocKeys_of_find_none {l : List (α × β)} {k : α}
    (h : assocFind l k = none) : k ∉ assocKeys l := by
  intro hm
  have := assocFind_isSome_of_mem hm
  rw [h] at this
  exact Bool.noConfusion this

end Assoc

/-! ### EditorWindow: IPC request/reply session table

Embedding of the `EditorWindow` methods `sendRequestToPage`,
`cancelRequestToPage`, `_reply`, and the parts of the constructor and of
the native `close`/`closed` event handlers that the claims are about
(src/lib/main/editor-window.js).  Callbacks are identified by a `Nat`
token; reply payloads are opaque `Nat` lists. -/

/-- JavaScript value passed as an argument of `sendRequestToPage`:
a string, a function (identified by a token), or anything else. -/
inductive JsArg : Type
  | str (s : String)
  | fn (cb : Nat)
  | other (tag : Nat)
  deriving DecidableEq, Repr

/-- State of one window's request/reply bookkeeping: the `_nextSessionId`
counter and the `_replyCallbacks` table (session id to callback token). -/
structure WinIpcState where
  nextSessionId : Nat
  replyCallbacks : List (Nat × Nat)
  deriving DecidableEq, Repr

/-- Observable side effect of an `EditorWindow` IPC method:
the tagged request message sent to the page, or an `Editor.error` report. -/
inductive WEffect : Type
  | sendReq2Page (channel : String) (sessionId : Nat) (args : List JsArg)
  | errorLog (msg : String)
  deriving DecidableEq, Repr

/-- Record of one reply-callback invocation: which session's callback ran
and with which arguments (empty on window teardown). -/
structure Invocation where
  sid : Nat
  cb : Nat
  args : List Nat
  deriving DecidableEq, Repr

/-- Embedding of `EditorWindow.sendRequestToPage (channel, ...args)`:
validates that the channel is a string, that at least one argument follows,
and that the last argument is a function; then allocates
`sessionId = this._nextSessionId++`, stores the reply callback, sends the
tagged request, and returns the session id.  On a validation failure it
reports an error and returns `none` (JS `null`). -/
def sendRequestToPage (st : WinIpcState) (channel : JsArg) (args : List JsArg) :
    WinIpcState × Option Nat × List WEffect :=
  match channel with
  | JsArg.str c =>
    if args.length = 0 then
      (st, none, [WEffect.errorLog "Invalid arguments, reply function not found!"])
    else
      match args.getLast? with
      | some (JsArg.fn cb) =>
        let sessionId := st.nextSessionId
        ({ nextSessionId := sessionId + 1,
           replyCallbacks := assocSet st.replyCallbacks sessionId cb },
         some sessionId,
         [WEffect.sendReq2Page c sessionId args.dropLast])
      | _ => (st, none, [WEffect.errorLog "The last argument must be function"])
  | _ => (st, none, [WEffect.errorLog "The channel must be string"])

/-- Embedding of `EditorWindow.cancelRequestToPage (sessionId)`:
`delete this._replyCallbacks[sessionId]`. -/
def cancelRequestToPage (st : WinIpcState) (sessionId : Nat) : WinIpcState :=
  { st with replyCallbacks := assocErase st.replyCallbacks sessionId }

/-- Embedding of `EditorWindow._reply (sessionId, args)`: look up the stored
callback; if present, invoke it with the reply arguments and delete it;
otherwise do nothing. -/
def winReply (st : WinIpcState) (sessionId : Nat) (args : List Nat) :
    WinIpcState × List Invocation :=
  match assocFind st.replyCallbacks sessionId with
  | some cb =>
    ({ st with replyCallbacks := assocErase st.replyCallbacks sessionId },
     [⟨sessionId, cb, args⟩])
  | none => (st, [])

/-- Embedding of the `closed` event handler's callback sweep: every still
pending reply callback is invoked with no arguments (in table iteration
order) and the table is reset to `{}`. -/
def onClosed (st : WinIpcState) : WinIpcState × List Invocation :=
  ({ st with replyCallbacks := [] },
   st.replyCallbacks.map (fun kv => ⟨kv.1, kv.2, []⟩))

/-- Events that touch one window's reply-callback table during its life. -/
inductive WEvent : Type
  | sendReq (channel : JsArg) (args : List JsArg)
  | reply (sessionId : Nat) (args : List Nat)
  | cancel (sessionId : Nat)
  | closed
  deriving DecidableEq, Repr

/-- Trace of a window's IPC life: current state, the accumulated list of
callback invocations, and the session ids handed out so far. -/
structure WTrace where
  state : WinIpcState
  invs : List Invocation
  allocs : List Nat
  deriving DecidableEq, Repr

/-- Fresh window state: `this._nextSessionId = 0; this._replyCallbacks = {}`. -/
def initWin : WinIpcState := { nextSessionId := 0, replyCallbacks := [] }

/-- Trace of a freshly constructed window. -/
def initTrace : WTrace := { state := initWin, invs := [], allocs := [] }

/-- One event against a window, threading the invocation/allocation logs. -/
def stepEvent (t : WTrace) : WEvent → WTrace
  | WEvent.sendReq ch args =>
    let r := sendRequestToPage t.state ch args
    { state := r.1, invs := t.invs,
      allocs := t.allocs ++ (match r.2.1 with | some sid => [sid] | none => []) }
  | WEvent.reply sid args =>
    let r := winReply t.state sid args
    { state := r.1, invs := t.invs ++ r.2, allocs := t.allocs }
  | WEvent.cancel sid =>
    { state := cancelRequestToPage t.state sid, invs := t.invs, allocs := t.allocs }
  | WEvent.closed =>
    let r := onClosed t.state
    { state := r.1, invs := t.invs ++ r.2, allocs := t.allocs }

/-- Run a window from construction through a list of events. -/
def runEvents (evs : List WEvent) : WTrace := evs.foldl stepEvent initTrace

/-! ### EditorWindow: constructor windowType switch and close handler -/

/-- BrowserWindow options the constructor's `switch (this.windowType)`
decides (src/lib/main/editor-window.js lines 75-96). -/
structure WinOptions where
  resizable : Bool
  alwaysOnTop : Bool
  deriving DecidableEq, Repr

/-- Embedding of the constructor's `switch (this.windowType)`: returns the
updated options together with the resulting `hideWhenBlur` flag (set only
by the `quick` case; it starts out `false`). -/
def applyWindowType (windowType : String) (options : WinOptions) : WinOptions × Bool :=
  if windowType = "dockable" then ({ resizable := true, alwaysOnTop := false }, false)
  else if windowType = "float" then ({ resizable := true, alwaysOnTop := true }, false)
  else if windowType = "fixed-size" then ({ resizable := false, alwaysOnTop := true }, false)
  else if windowType = "quick" then ({ resizable := true, alwaysOnTop := true }, true)
  else (options, false)

/-- Outcome of the native `close` event handler for the window itself:
whether `event.preventDefault()` ran and whether the window hid itself. -/
structure CloseReaction where
  defaultPrevented : Bool
  hidden : Bool
  deriving DecidableEq, Repr

/-- Embedding of the `close` handler's quick-window branch
(src/lib/main/editor-window.js lines 132-137): a `quick` window prevents
the close and hides itself; any other kind lets the close proceed. -/
def onCloseEvent (windowType : String) : CloseReaction :=
  if windowType = "quick" then { defaultPrevented := true, hidden := true }
  else { defaultPrevented := false, hidden := false }

/-! ### Equation lemmas for `sendRequestToPage` -/

theorem sendRequestToPage_success (st : WinIpcState) (c : String)
    (args : List JsArg) (cb : Nat) (h : args.getLast? = some (JsArg.fn cb)) :
    sendRequestToPage st (JsArg.str c) args =
      ({ nextSessionId := st.nextSessionId + 1,
         replyCallbacks := assocSet st.replyCallbacks st.nextSessionId cb },
       some st.nextSessionId,
       [WEffect.sendReq2Page c st.nextSessionId args.dropLast]) := by
  have hne : args ≠ [] := by
    intro h0
    subst h0
    simp at h
  simp [sendRequestToPage, List.length_eq_zero, hne, h]

theorem sendRequestToPage_nonstring (st : WinIpcState) (ch : JsArg)
    (args : List JsArg) (h : ∀ s, ch ≠ JsArg.str s) :
    sendRequestToPage st ch args =
      (st, none, [WEffect.errorLog "The channel must be string"]) := by
  cases ch with
  | str s => exact absurd rfl (h s)
  | fn cb => rfl
  | other tag => rfl

theorem sendRequestToPage_noArgs (st : WinIpcState) (c : String) :
    sendRequestToPage st (JsArg.str c) [] =
      (st, none, [WEffect.errorLog "Invalid arguments, reply function not found!"]) := rfl

theorem sendRequestToPage_lastNotFn (st : WinIpcState) (c : String)
    (args : List JsArg) (hne : args ≠ [])
    (h : ∀ cb, args.getLast? ≠ some (JsArg.fn cb)) :
    sendRequestToPage st (JsArg.str c) args =
      (st, none, [WEffect.errorLog "The last argument must be function"]) := by
  rcases hlast : args.getLast? with _ | a
  · exact absurd (List.getLast?_isSome.mpr hne) (by simp [hlast])
  · cases a with
    | str s => simp [sendRequestToPage, List.length_eq_zero, hne, hlast]
    | fn cb => exact absurd hlast (h cb)
    | other tag => simp [sendRequestToPage, List.length_eq_zero, hne, hlast]

/-! ### The session-table invariant -/

/-- Invariant of a window trace: the callback table has distinct keys all
below the session counter, the invocation log mentions each session id at
most once and never one still pending in the table, and every allocated id
is below the counter. -/
def WinInv (t : WTrace) : Prop :=
  (assocKeys t.state.replyCallbacks).Nodup ∧
  (∀ k ∈ assocKeys t.state.replyCallbacks, k < t.state.nextSessionId) ∧
  (t.invs.map Invocation.sid).Nodup ∧
  (∀ s ∈ t.invs.map Invocation.sid, s < t.state.nextSessionId) ∧
  (∀ s ∈ t.invs.map Invocation.sid, s ∉ assocKeys t.state.replyCallbacks) ∧
  (∀ a ∈ t.allocs, a < t.state.nextSessionId)

theorem winInv_init : WinInv initTrace := by
  refine ⟨?_, ?_, ?_, ?_, ?_, ?_⟩ <;> simp [initTrace, initWin, assocKeys]

theorem winInv_step_sendReq (t : WTrace) (ch : JsArg) (args : List JsArg)
    (h : WinInv t) : WinInv (stepEvent t (WEvent.sendReq ch args)) := by
  obtain ⟨h1, h2, h3, h4, h5, h6⟩ := h
  by_cases hstr : ∀ s, ch ≠ JsArg.str s
  · simp only [stepEvent, sendRequestToPage_nonstring t.state ch args hstr]
    exact ⟨h1, h2, h3, h4, h5, by simpa using h6⟩
  · push_neg at hstr
    obtain ⟨c, rfl⟩ := hstr
    by_cases hargs : args = []
    · subst hargs
      simp only [stepEvent, sendRequestToPage_noArgs]
      exact ⟨h1, h2, h3, h4, h5, by simpa using h6⟩
    · by_cases hfn : ∃ cb, args.getLast? = some (JsArg.fn cb)
      · obtain ⟨cb, hcb⟩ := hfn
        have hnotmem : t.state.nextSessionId ∉ assocKeys t.state.replyCallbacks :=
          fun hm => lt_irrefl _ (h2 _ hm)
        simp only [stepEvent, sendRequestToPage_success t.state c args cb hcb,
          assocSet_of_not_mem cb hnotmem]
        refine ⟨?_, ?_, h3, ?_, ?_, ?_⟩
        · rw [assocKeys_append]
          simp only [assocKeys, List.map_cons, List.map_nil]
          rw [List.nodup_append]
          exact ⟨h1, List.nodup_singleton _, by
            intro x hx hy
            simp only [List.mem_singleton] at hy
            subst hy
            exact hnotmem hx⟩
        · intro k hk
          rw [assocKeys_append] at hk
          rcases List.mem_append.mp hk with hk | hk
          · exact Nat.lt_succ_of_lt (h2 _ hk)
          · simp only [assocKeys, List.map_cons, List.map_nil, List.mem_singleton] at hk
            subst hk
            exact Nat.lt_succ_self _
        · intro s hs
          exact Nat.lt_succ_of_lt (h4 _ hs)
        · intro s hs
          rw [assocKeys_append]
          intro hmem
          rcases List.mem_append.mp hmem with hm | hm
          · exact h5 _ hs hm
          · simp only [assocKeys, List.map_cons, List.map_nil, List.mem_singleton] at hm
            subst hm
            exact lt_irrefl _ (h4 _ hs)
        · intro a ha
          rcases List.mem_append.mp ha with ha | ha
          · exact Nat.lt_succ_of_lt (h6 _ ha)
          · simp only [List.mem_singleton] at ha
            subst ha
            exact Nat.lt_succ_self _
      · push_neg at hfn
        simp only [stepEvent, sendRequestToPage_lastNotFn t.state c args hargs hfn]
        exact ⟨h1, h2, h3, h4, h5, by simpa using h6⟩

theorem winInv_step_reply (t : WTrace) (sid : Nat) (args : List Nat)
    (h : WinInv t) : WinInv (stepEvent t (WEvent.reply sid args)) := by
  obtain ⟨h1, h2, h3, h4, h5, h6⟩ := h
  rcases hf : assocFind t.state.replyCallbacks sid with _ | cb
  · simp only [stepEvent, winReply, hf]
    exact ⟨h1, h2, by simpa using h3, by simpa using h4, by simpa using h5, h6⟩
  · have hmem : sid ∈ assocKeys t.state.replyCallbacks := mem_assocKeys_of_find hf
    simp only [stepEvent, winReply, hf]
    refine ⟨assocKeys_erase_nodup _ h1, ?_, ?_, ?_, ?_, h6⟩
    · intro k hk
      exact h2 _ (assocKeys_erase_subset _ _ _ hk)
    · rw [List.map_append]
      rw [List.nodup_append]
      refine ⟨h3, by simp, ?_⟩
      intro x hx hy
      simp only [List.map_cons, List.map_nil, List.mem_singleton] at hy
      subst hy
      exact h5 _ hx hmem
    · intro s hs
      rw [List.map_append] at hs
      rcases List.mem_append.mp hs with hs | hs
      · exact h4 _ hs
      · simp only [List.map_cons, List.map_nil, List.mem_singleton] at hs
        subst hs
        exact h2 _ hmem
    · intro s hs
      rw [List.map_append] at hs
      rcases List.mem_append.mp hs with hs | hs
      · intro hm
        exact h5 _ hs (assocKeys_erase_subset _ _ _ hm)
      · simp only [List.map_cons, List.map_nil, List.mem_singleton] at hs
        subst hs
        exact not_mem_assocKeys_erase _ _

theorem winInv_step_cancel (t : WTrace) (sid : Nat)
    (h : WinInv t) : WinInv (stepEvent t (WEvent.cancel sid)) := by
  obtain ⟨h1, h2, h3, h4, h5, h6⟩ := h
  simp only [stepEvent, cancelRequestToPage]
  refine ⟨assocKeys_erase_nodup _ h1, ?_, h3, h4, ?_, h6⟩
  · intro k hk
    exact h2 _ (assocKeys_erase_subset _ _ _ hk)
  · intro s hs hm
    exact h5 _ hs (assocKeys_erase_subset _ _ _ hm)

theorem winInv_step_closed (t : WTrace)
    (h : WinInv t) : WinInv (stepEvent t WEvent.closed) := by
  obtain ⟨h1, h2, h3, h4, h5, h6⟩ := h
  simp only [stepEvent, onClosed]
  have hmap : (t.state.replyCallbacks.map
      (fun kv => (⟨kv.1, kv.2, []⟩ : Invocation))).map Invocation.sid =
      assocKeys t.state.replyCallbacks := by
    simp [assocKeys, List.map_map]
  refine ⟨by simp [assocKeys], by simp [assocKeys], ?_, ?_, ?_, h6⟩
  · rw [List.map_append, hmap, List.nodup_append]
    exact ⟨h3, h1, fun x hx hy => h5 _ hx hy⟩
  · intro s hs
    rw [List.map_append, hmap] at hs
    rcases List.mem_append.mp hs with hs | hs
    · exact h4 _ hs
    · exact h2 _ hs
  · simp [assocKeys]

theorem winInv_stepEvent (t : WTrace) (e : WEvent)
    (h : WinInv t) : WinInv (stepEvent t e) := by
  cases e with
  | sendReq ch args => exact winInv_step_sendReq t ch args h
  | reply sid args => exact winInv_step_reply t sid args h
  | cancel sid => exact winInv_step_cancel t sid h
  | closed => exact winInv_step_closed t h

theorem winInv_foldl (evs : List WEvent) :
    ∀ t, WinInv t → WinInv (evs.foldl stepEvent t) := by
  induction evs with
  | nil => intro t ht; exact ht
  | cons e rest ih => intro t ht; exact ih _ (winInv_stepEvent t e ht)

theorem winInv_runEvents (evs : List WEvent) : WinInv (runEvents evs) :=
  winInv_foldl evs initTrace winInv_init

/-! ### EditorPanel: the panel-to-window dock table

Embedding of the `EditorPanel` module of src/lib/main/editor-window.js:
`_dock`, `_undock`, `_saveLayout`, `open`, `close`, `findWindow`,
`findWindows`, `findPanels`, `closeAll`.  Windows are identified by `Nat`
ids; `argv` payloads are opaque `Nat`s. -/

/-- Panel manifest fragment as returned by `Editor.Package.panelInfo`; only
the fields the embedded control flow branches on.  The numeric geometry
fields (`width`, `height`, min/max) parameterize only the native
BrowserWindow options and are not modelled. -/
structure PanelInfo where
  type : Option String
  frame : String
  deriving DecidableEq, Repr

/-- External collaborators of the panel module: the package registry's
`panelInfo` lookup and the identity of the main window (the source derives
`isMainWindow` by comparing against `Editor.mainWindow`). -/
structure PanelEnv where
  panelInfo : String → Option PanelInfo
  mainWindow : Option Nat

/-- Process-wide panel state: `_panel2windows`, `_panel2argv`, and the set
of live windows (with a fresh-id counter standing in for `new
Editor.Window`). -/
structure PanelState where
  panel2windows : List (String × Nat)
  panel2argv : List (String × Nat)
  nextWinId : Nat
  windows : List Nat
  deriving DecidableEq, Repr

/-- Observable side effect of a panel operation. -/
inductive PEffect : Type
  | sendToPage (winId : Nat) (channel : String) (panelID : String)
  | sendToPanel (panelID : String) (channel : String) (argv : Nat)
  | showWin (winId : Nat)
  | focusWin (winId : Nat)
  | closeWin (winId : Nat)
  | createWin (winId : Nat) (windowType : String)
  | loadWin (winId : Nat) (url : String)
  | savePanelProfile (panelID : String)
  | errorLog (msg : String)
  deriving DecidableEq, Repr

/-- Split a character list at every occurrence of `c`, keeping empty
segments, exactly as JavaScript `String.prototype.split` does. -/
def splitChar (c : Char) : List Char → List (List Char)
  | [] => [[]]
  | ch :: rest =>
    if ch = c then [] :: splitChar c rest
    else
      match splitChar c rest with
      | [] => [[ch]]
      | w :: ws => (ch :: w) :: ws

/-- JavaScript `panelID.split('.')`: e.g. `"a.b"` gives `["a", "b"]`,
`"a"` gives `["a"]`, `"a.b.c"` gives three parts, `""` gives `[""]`. -/
def jsSplitDot (s : String) : List String :=
  (splitChar '.' s.toList).map (fun cs => String.mk cs)

/-- Embedding of `_dock(panelID, win)`: record the panel's owner,
last-writer-wins (the same-panel-elsewhere case only carries a TODO comment
in the source). -/
def dockPanel (st : PanelState) (panelID : String) (win : Nat) : PanelState :=
  { st with panel2windows := assocSet st.panel2windows panelID win }

/-- Embedding of `_undock(panelID)`: if the panel is docked, send
`panel:undock` to its window, delete the mapping entry and return the
window; otherwise return `null`. -/
def undockPanel (st : PanelState) (panelID : String) :
    PanelState × Option Nat × List PEffect :=
  match assocFind st.panel2windows panelID with
  | some w =>
    ({ st with panel2windows := assocErase st.panel2windows panelID }, some w,
     [PEffect.sendToPage w "panel:undock" panelID])
  | none => (st, none, [])

/-- Embedding of `_saveLayout(editorWin, panelID)`: persist the window's
content size and position to the `layout.<panelID>` profile — but only when
the window is not the main window. -/
def saveLayout (env : PanelEnv) (win : Nat) (panelID : String) : List PEffect :=
  if env.mainWindow = some win then [] else [PEffect.savePanelProfile panelID]

/-- Embedding of `EditorPanel.close(panelID)`: undock (a no-op when the
panel is not docked), save the layout, then close the window when no other
panel remains docked in it and it is not the main window. -/
def closePanel (env : PanelEnv) (st : PanelState) (panelID : String) :
    PanelState × List PEffect :=
  match undockPanel st panelID with
  | (st', none, effs) => (st', effs)
  | (st', some w, effs) =>
    let effs := effs ++ saveLayout env w panelID
    let found := st'.panel2windows.any (fun kv => kv.2 == w)
    if found = false ∧ env.mainWindow ≠ some w then
      (st', effs ++ [PEffect.closeWin w])
    else
      (st', effs)

/-- Embedding of `EditorPanel.findWindow(panelID)`: `_panel2windows[panelID]`. -/
def findWindow (st : PanelState) (panelID : String) : Option Nat :=
  assocFind st.panel2windows panelID

/-- Embedding of `EditorPanel.findWindows(packageName)` exactly as written:
walk `_panel2windows` in iteration order, split each key on `"."`, skip
keys that do not split in exactly two parts, and collect the window
(without duplicates) when the second component — `pair[1]`, the panel-name
part of the `<package>.<panel>` key — equals `packageName`. -/
def findWindows (st : PanelState) (packageName : String) : List Nat :=
  go st.panel2windows []
where
  go : List (String × Nat) → List Nat → List Nat
    | [], wins => wins
    | (p, w) :: rest, wins =>
      match jsSplitDot p with
      | [_, name] =>
        if name = packageName then
          if w ∈ wins then go rest wins else go rest (wins ++ [w])
        else go rest wins
      | _ => go rest wins

/-- Embedding of `EditorPanel.findPanels(packageName)` exactly as written:
for each key whose first component equals `packageName`, it pushes the
split pair itself (`panelIDs.push(pair)`) — a two-element array, not the
panel-id string. -/
def findPanels (st : PanelState) (packageName : String) : List (List String) :=
  go st.panel2windows []
where
  go : List (String × Nat) → List (List String) → List (List String)
    | [], acc => acc
    | (p, _) :: rest, acc =>
      match jsSplitDot p with
      | [name, pname] =>
        if name = packageName then go rest (acc ++ [[name, pname]]) else go rest acc
      | _ => go rest acc

/-- JavaScript property-key coercion of an array: `obj[arr]` stringifies
the key with `Array.prototype.toString`, joining the elements with `","`. -/
def jsPropertyKey (pair : List String) : String := String.intercalate "," pair

/-- Embedding of `EditorPanel.closeAll(packageName)`: close every entry
returned by `findPanels` — the source passes each split pair (an array) to
`close`, where it is used as a property key and coerced by
`Array.prototype.toString`. -/
def closeAll (env : PanelEnv) (st : PanelState) (packageName : String) :
    PanelState × List PEffect :=
  (findPanels st packageName).foldl
    (fun acc pair =>
      let r := closePanel env acc.1 (jsPropertyKey pair)
      (r.1, acc.2 ++ r.2))
    (st, [])

/-- The `windowType := panelInfo.type || 'dockable'` default: JavaScript
`||` falls through on `undefined` and on the empty string. -/
def defaultWindowType (t : Option String) : String :=
  match t with
  | none => "dockable"
  | some s => if s = "" then "dockable" else s

/-- Embedding of `EditorPanel.open(panelID, argv)`.  The numeric window
geometry options (manifest width/height and min/max, layout-profile
overrides, NaN fallbacks) parameterize only the native BrowserWindow and
are not modelled; the panel-info check, the argv cache, the
already-docked fast path, window creation, docking and the emitted
messages are. -/
def openPanel (env : PanelEnv) (st : PanelState) (panelID : String) (argv : Nat) :
    PanelState × List PEffect :=
  match env.panelInfo panelID with
  | none =>
    (st, [PEffect.errorLog ("Failed to open panel " ++ panelID ++ ", panel info not found.")])
  | some info =>
    let st₁ : PanelState := { st with panel2argv := assocSet st.panel2argv panelID argv }
    match assocFind st₁.panel2windows panelID with
    | some w =>
      (st₁, [PEffect.sendToPanel panelID "panel:run" argv,
             PEffect.showWin w, PEffect.focusWin w])
    | none =>
      let windowType := defaultWindowType info.type
      let wid := st₁.nextWinId
      let st₂ : PanelState :=
        { st₁ with nextWinId := wid + 1, windows := st₁.windows ++ [wid] }
      let st₃ := dockPanel st₂ panelID wid
      let loadUrl :=
        if info.type = some "simple" then
          "packages://" ++ ((jsSplitDot panelID).headD "") ++ "/" ++ info.frame
        else
          "editor-framework://static/window.html"
      (st₃, [PEffect.createWin wid windowType, PEffect.loadWin wid loadUrl,
             PEffect.focusWin wid])

/-! ### PackageRegistry loading (modelled from the spec)

The `Editor.Package` implementation is not among the source files; only its
test suite (src/unnamed/part_000) is.  The loader is therefore modelled
from the spec. -/

/-- Load a list of packages in declaration order with a given single-package
loader `step`, threading the loaded set and concatenating the
`package:loaded` emissions. -/
def loadDepsWith (step : List String → String → List String × List String) :
    List String → List String → List String × List String
  | loaded, [] => (loaded, [])
  | loaded, d :: ds =>
    let s := step loaded d
    let t := loadDepsWith step s.1 ds
    (t.1, s.2 ++ t.2)

/-- Modelled from the spec: the missing `Editor.Package.load` resolution.
`load(P)` first loads all declared dependencies of `P` in declaration
order — each completing and emitting `package:loaded` strictly before the
dependent — then loads `P` itself and emits `package:loaded` for it
(post-order traversal); loading an already-loaded package is a no-op with
no duplicate emission.  `deps` is the declared-dependency map, `fuel`
bounds the recursion depth (behaviour on dependency cycles is an open
question in the spec), `loaded` is the set of already-loaded package
names.  Returns the new loaded set and the ordered `package:loaded`
emissions. -/
def loadPkg (deps : String → List String) : Nat → List String → String →
    List String × List String
  | 0, loaded, _ => (loaded, [])
  | fuel + 1, loaded, p =>
    if p ∈ loaded then (loaded, [])
    else
      let r := loadDepsWith (fun l d => loadPkg deps fuel l d) loaded (deps p)
      (p :: r.1, r.2 ++ [p])

/-- The dependency phase of a `load`: all declared dependencies, in
declaration order, at the remaining fuel. -/
def loadDeps (deps : String → List String) (fuel : Nat) :
    List String → List String → List String × List String :=
  loadDepsWith (fun l d => loadPkg deps fuel l d)

/-- Declared dependencies of the `package-deps` test fixture:
`package-deps` depends on `dep-01`, which depends on `dep-02`. -/
def exDeps : String → List String
  | "package-deps" => ["dep-01"]
  | "dep-01" => ["dep-02"]
  | _ => []

theorem loadDepsWith_loaded_eq
    (step : List String → String → List String × List String)
    (hstep : ∀ l d, (step l d).1 = (step l d).2.reverse ++ l) :
    ∀ ds loaded, (loadDepsWith step loaded ds).1 =
      (loadDepsWith step loaded ds).2.reverse ++ loaded := by
  intro ds
  induction ds with
  | nil => intro loaded; rfl
  | cons d ds ih =>
    intro loaded
    simp only [loadDepsWith]
    rw [ih, hstep, List.reverse_append, List.append_assoc]

theorem loadPkg_loaded_eq (deps : String → List String) :
    ∀ fuel loaded p, (loadPkg deps fuel loaded p).1 =
      (loadPkg deps fuel loaded p).2.reverse ++ loaded := by
  intro fuel
  induction fuel with
  | zero => intro loaded p; rfl
  | succ fuel ih =>
    intro loaded p
    by_cases hp : p ∈ loaded
    · simp [loadPkg, hp]
    · simp only [loadPkg, if_neg hp]
      rw [loadDepsWith_loaded_eq _ (fun l d => ih l d)]
      simp

theorem loadDeps_loaded_eq (deps : String → List String) (fuel : Nat)
    (loaded ds : List String) :
    (loadDeps deps fuel loaded ds).1 = (loadDeps deps fuel loaded ds).2.reverse ++ loaded :=
  loadDepsWith_loaded_eq _ (fun l d => loadPkg_loaded_eq deps fuel l d) ds loaded

theorem mem_loadDeps_iff (deps : String → List String) (fuel : Nat)
    (loaded ds : List String) (x : String) :
    x ∈ (loadDeps deps fuel loaded ds).1 ↔
      x ∈ (loadDeps deps fuel loaded ds).2 ∨ x ∈ loaded := by
  rw [loadDeps_loaded_eq]
  simp

/-! ## Claim theorems -/

/-- A dock table holding the single panel `foo.bar` of package `foo`,
docked in window 0. -/
def fooBarState : PanelState :=
  { panel2windows := [("foo.bar", 0)], panel2argv := [], nextWinId := 1, windows := [0] }

/-- An environment in which no package info resolves and window 9 (not
window 0) is the main window. -/
def noInfoEnv : PanelEnv := { panelInfo := fun _ => none, mainWindow := some 9 }

/-- C9: a window created with windowType `dockable` becomes resizable and
not always-on-top; `float` resizable and always-on-top; `fixed-size`
non-resizable and always-on-top; `quick` resizable and always-on-top, and
on a native close event a `quick` window prevents the close and hides
itself instead of being destroyed. -/
theorem windowType_options_spec (opts : WinOptions) :
    applyWindowType "dockable" opts = ({ resizable := true, alwaysOnTop := false }, false) ∧
    applyWindowType "float" opts = ({ resizable := true, alwaysOnTop := true }, false) ∧
    applyWindowType "fixed-size" opts = ({ resizable := false, alwaysOnTop := true }, false) ∧
    applyWindowType "quick" opts = ({ resizable := true, alwaysOnTop := true }, true) ∧
    onCloseEvent "quick" = { defaultPrevented := true, hidden := true } ∧
    onCloseEvent "dockable" = { defaultPrevented := false, hidden := false } := by
  exact ⟨rfl, rfl, rfl, rfl, rfl, rfl⟩

/-- C10: when `Editor.Package.panelInfo(panelID)` returns nothing,
`EditorPanel.open` only reports an error: it creates no window and leaves
the whole panel state — including the cached per-panel argv table —
unchanged. -/
theorem openPanel_no_info_spec (env : PanelEnv) (st : PanelState)
    (pid : String) (argv : Nat) (h : env.panelInfo pid = none) :
    openPanel env st pid argv =
      (st, [PEffect.errorLog ("Failed to open panel " ++ pid ++ ", panel info not found.")]) ∧
    (openPanel env st pid argv).1.panel2argv = st.panel2argv ∧
    (openPanel env st pid argv).1.panel2windows = st.panel2windows ∧
    (openPanel env st pid argv).1.windows = st.windows := by
  have heq : openPanel env st pid argv =
      (st, [PEffect.errorLog ("Failed to open panel " ++ pid ++ ", panel info not found.")]) := by
    simp only [openPanel, h]
  exact ⟨heq, by rw [heq], by rw [heq], by rw [heq]⟩

/-- C10 witness: a failed open at a state with a previously cached argv
changes nothing; in particular the cached argv 42 survives. -/
theorem openPanel_no_info_witness :
    (noInfoEnv.panelInfo "foo.bar" = none) ∧
    ((openPanel noInfoEnv
        { panel2windows := [], panel2argv := [("foo.bar", 42)], nextWinId := 0, windows := [] }
        "foo.bar" 7).1.panel2argv = [("foo.bar", 42)]) :=
  ⟨rfl,
   (openPanel_no_info_spec noInfoEnv
     { panel2windows := [], panel2argv := [("foo.bar", 42)], nextWinId := 0, windows := [] }
     "foo.bar" 7 rfl).2.1⟩

/-- C5 counterexample: `foo.bar` is docked in window 0, yet `open` on it
delivers no `panel:run` message and neither shows nor focuses the window,
because the panel-info lookup happens first and fails here; the claim's
unconditional consequent is therefore false for this docked panel. -/
theorem openPanel_docked_counterexample :
    findWindow fooBarState "foo.bar" = some 0 ∧
    (openPanel noInfoEnv fooBarState "foo.bar" 7).2 =
      [PEffect.errorLog "Failed to open panel foo.bar, panel info not found."] := by
  decide

/-- C5 (amended): for a panel currently docked in window `w` whose package
panel info is still resolvable, `open` re-delivers `panel:run` with the new
argv, then shows and focuses `w`; no window is created and the mapping
still maps the panel to `w`. -/
theorem openPanel_docked_spec (env : PanelEnv) (st : PanelState) (pid : String)
    (argv w : Nat) (info : PanelInfo)
    (hinfo : env.panelInfo pid = some info)
    (hdock : assocFind st.panel2windows pid = some w) :
    openPanel env st pid argv =
      ({ st with panel2argv := assocSet st.panel2argv pid argv },
       [PEffect.sendToPanel pid "panel:run" argv, PEffect.showWin w, PEffect.focusWin w]) ∧
    findWindow (openPanel env st pid argv).1 pid = some w ∧
    (openPanel env st pid argv).1.windows = st.windows ∧
    (openPanel env st pid argv).1.nextWinId = st.nextWinId := by
  have heq : openPanel env st pid argv =
      ({ st with panel2argv := assocSet st.panel2argv pid argv },
       [PEffect.sendToPanel pid "panel:run" argv, PEffect.showWin w, PEffect.focusWin w]) := by
    simp only [openPanel, hinfo, hdock]
  refine ⟨heq, ?_, by rw [heq], by rw [heq]⟩
  rw [heq]
  exact hdock

/-- C5 witness: opening the docked `foo.bar` with resolvable panel info at a
fresh argv re-targets the existing window 0. -/
theorem openPanel_docked_witness :
    ((PanelEnv.mk (fun _ => some ⟨some "dockable", "frame.html"⟩) none).panelInfo "foo.bar" =
      some ⟨some "dockable", "frame.html"⟩) ∧
    assocFind fooBarState.panel2windows "foo.bar" = some 0 ∧
    findWindow (openPanel (PanelEnv.mk (fun _ => some ⟨some "dockable", "frame.html"⟩) none)
      fooBarState "foo.bar" 7).1 "foo.bar" = some 0 :=
  ⟨rfl, by decide,
   (openPanel_docked_spec (PanelEnv.mk (fun _ => some ⟨some "dockable", "frame.html"⟩) none)
     fooBarState "foo.bar" 7 0 ⟨some "dockable", "frame.html"⟩ rfl (by decide)).2.1⟩

/-- An environment in which window 0 is the main window. -/
def mainWinEnv : PanelEnv := { panelInfo := fun _ => none, mainWindow := some 0 }

/-- C6 counterexample: `foo.bar` is docked in window 0, which is the main
window; `close` undocks it but emits no layout-profile save, because
`_saveLayout` does nothing for the main window — the claim's unconditional
"persists that window's geometry" is false here. -/
theorem closePanel_mainWindow_counterexample :
    findWindow fooBarState "foo.bar" = some 0 ∧
    (closePanel mainWinEnv fooBarState "foo.bar").2 =
      [PEffect.sendToPage 0 "panel:undock" "foo.bar"] := by
  decide

/-- C6 (amended): closing a docked panel undocks it (a `panel:undock`
notification goes to its window) and removes it from the mapping, persists
the window's geometry to the per-panel layout profile exactly when the
window is not the main window, and closes the window exactly when no other
panel remains mapped to it and it is not the main window. -/
theorem closePanel_docked_spec (env : PanelEnv) (st : PanelState) (pid : String)
    (w : Nat) (hdock : assocFind st.panel2windows pid = some w) :
    (closePanel env st pid).1.panel2windows = assocErase st.panel2windows pid ∧
    PEffect.sendToPage w "panel:undock" pid ∈ (closePanel env st pid).2 ∧
    (PEffect.savePanelProfile pid ∈ (closePanel env st pid).2 ↔ env.mainWindow ≠ some w) ∧
    (PEffect.closeWin w ∈ (closePanel env st pid).2 ↔
      ((∀ kv ∈ assocErase st.panel2windows pid, kv.2 ≠ w) ∧ env.mainWindow ≠ some w)) := by
  have hany : ((assocErase st.panel2windows pid).any (fun kv => kv.2 == w) = false) ↔
      (∀ kv ∈ assocErase st.panel2windows pid, kv.2 ≠ w) := by
    simp [List.any_eq_false]
  by_cases hmain : env.mainWindow = some w
  · have heq : closePanel env st pid =
        ({ st with panel2windows := assocErase st.panel2windows pid },
         [PEffect.sendToPage w "panel:undock" pid]) := by
      simp [closePanel, undockPanel, hdock, saveLayout, hmain]
    rw [heq]
    simp [hmain]
  · by_cases hf : (assocErase st.panel2windows pid).any (fun kv => kv.2 == w) = false
    · have heq : closePanel env st pid =
          ({ st with panel2windows := assocErase st.panel2windows pid },
           [PEffect.sendToPage w "panel:undock" pid, PEffect.savePanelProfile pid,
            PEffect.closeWin w]) := by
        simp [closePanel, undockPanel, hdock, saveLayout, hmain, hf]
      rw [heq]
      simpa [hmain] using hany.mp hf
    · have heq : closePanel env st pid =
          ({ st with panel2windows := assocErase st.panel2windows pid },
           [PEffect.sendToPage w "panel:undock" pid, PEffect.savePanelProfile pid]) := by
        simp [closePanel, undockPanel, hdock, saveLayout, hmain, hf]
      rw [heq]
      refine ⟨rfl, by simp, by simp [hmain], ?_⟩
      simp only [List.mem_cons, List.not_mem_nil]
      constructor
      · intro hc
        rcases hc with hc | hc | hc <;> exact absurd hc (by simp)
      · intro hc
        exact absurd (hany.mpr hc.1) hf

/-- C6 witness: closing the sole panel of a non-main window undocks it,
saves its layout profile, and closes the window. -/
theorem closePanel_docked_witness :
    assocFind fooBarState.panel2windows "foo.bar" = some 0 ∧
    (PEffect.savePanelProfile "foo.bar" ∈ (closePanel noInfoEnv fooBarState "foo.bar").2 ↔
      noInfoEnv.mainWindow ≠ some 0) ∧
    (PEffect.closeWin 0 ∈ (closePanel noInfoEnv fooBarState "foo.bar").2 ↔
      ((∀ kv ∈ assocErase fooBarState.panel2windows "foo.bar", kv.2 ≠ 0) ∧
        noInfoEnv.mainWindow ≠ some 0)) :=
  ⟨by decide,
   (closePanel_docked_spec noInfoEnv fooBarState "foo.bar" 0 (by decide)).2.2.1,
   (closePanel_docked_spec noInfoEnv fooBarState "foo.bar" 0 (by decide)).2.2.2⟩

/-- C4 (code bug): with `foo.bar` docked in window 0, `closeAll("foo")`
closes nothing and leaves the mapping unchanged: `findPanels` pushes the
split pair (a two-element array) instead of the panel-id string, `close`
then uses that array as a property key, and its string coercion
`"foo,bar"` misses the `"foo.bar"` entry. -/
theorem closeAll_failing_input :
    closeAll noInfoEnv fooBarState "foo" = (fooBarState, []) ∧
    findWindow (closeAll noInfoEnv fooBarState "foo").1 "foo.bar" = some 0 ∧
    findPanels fooBarState "foo" = [["foo", "bar"]] ∧
    jsPropertyKey ["foo", "bar"] = "foo,bar" := by
  decide

/-- C7 (code bug): with `foo.bar` — a panel of package `foo` — docked in
window 0, `findWindows "foo"` returns no window while `findWindows "bar"`
returns window 0: the source compares `pair[1]`, the panel-name part of the
key, against the package name instead of `pair[0]`. -/
theorem findWindows_failing_input :
    fooBarState.panel2windows = [("foo.bar", 0)] ∧
    findWindows fooBarState "foo" = [] ∧
    findWindows fooBarState "bar" = [0] := by
  decide

/-- C3: with a string channel and a trailing function argument,
`sendRequestToPage` allocates the current `_nextSessionId` — strictly
greater than every session id previously allocated by the window — stores
the reply callback under it and returns it; with a non-string channel, no
arguments after the channel, or a non-function last argument it reports an
error, returns no session id (`null`) and stores nothing (the state is
unchanged). -/
theorem sendRequestToPage_spec (evs : List WEvent) (c : String)
    (args : List JsArg) (cb : Nat) (h : args.getLast? = some (JsArg.fn cb)) :
    ((sendRequestToPage (runEvents evs).state (JsArg.str c) args).2.1 =
        some (runEvents evs).state.nextSessionId) ∧
    (∀ a ∈ (runEvents evs).allocs, a < (runEvents evs).state.nextSessionId) ∧
    (assocFind (sendRequestToPage (runEvents evs).state (JsArg.str c) args).1.replyCallbacks
        (runEvents evs).state.nextSessionId = some cb) ∧
    ((sendRequestToPage (runEvents evs).state (JsArg.str c) args).1.nextSessionId =
        (runEvents evs).state.nextSessionId + 1) ∧
    (∀ (st : WinIpcState) (ch : JsArg) (args₂ : List JsArg), (∀ s, ch ≠ JsArg.str s) →
        sendRequestToPage st ch args₂ =
          (st, none, [WEffect.errorLog "The channel must be string"])) ∧
    (∀ (st : WinIpcState) (c₂ : String),
        sendRequestToPage st (JsArg.str c₂) [] =
          (st, none, [WEffect.errorLog "Invalid arguments, reply function not found!"])) ∧
    (∀ (st : WinIpcState) (c₂ : String) (args₂ : List JsArg), args₂ ≠ [] →
        (∀ cb₂, args₂.getLast? ≠ some (JsArg.fn cb₂)) →
        sendRequestToPage st (JsArg.str c₂) args₂ =
          (st, none, [WEffect.errorLog "The last argument must be function"])) := by
  have hs := sendRequestToPage_success (runEvents evs).state c args cb h
  refine ⟨?_, (winInv_runEvents evs).2.2.2.2.2, ?_, ?_,
    sendRequestToPage_nonstring, sendRequestToPage_noArgs, sendRequestToPage_lastNotFn⟩
  · rw [hs]
  · rw [hs]
    exact assocFind_assocSet_self _ _ _
  · rw [hs]

/-- C3 witness: after one successful request (session 0), a new valid call
returns session id 1 and stores callback 99 under it. -/
theorem sendRequestToPage_spec_witness :
    ([JsArg.other 1, JsArg.fn 99].getLast? = some (JsArg.fn 99)) ∧
    ((sendRequestToPage (runEvents [WEvent.sendReq (JsArg.str "a") [JsArg.fn 5]]).state
        (JsArg.str "ch") [JsArg.other 1, JsArg.fn 99]).2.1 =
      some (runEvents [WEvent.sendReq (JsArg.str "a") [JsArg.fn 5]]).state.nextSessionId) ∧
    (assocFind (sendRequestToPage (runEvents [WEvent.sendReq (JsArg.str "a") [JsArg.fn 5]]).state
        (JsArg.str "ch") [JsArg.other 1, JsArg.fn 99]).1.replyCallbacks
        (runEvents [WEvent.sendReq (JsArg.str "a") [JsArg.fn 5]]).state.nextSessionId =
      some 99) :=
  ⟨by decide,
   (sendRequestToPage_spec [WEvent.sendReq (JsArg.str "a") [JsArg.fn 5]] "ch"
     [JsArg.other 1, JsArg.fn 99] 99 (by decide)).1,
   (sendRequestToPage_spec [WEvent.sendReq (JsArg.str "a") [JsArg.fn 5]] "ch"
     [JsArg.other 1, JsArg.fn 99] 99 (by decide)).2.2.1⟩

/-- C8: `cancelRequestToPage` removes the pending callback without invoking
it (the invocation log does not grow on a cancel event), a `_reply`
arriving for the cancelled session finds no callback and is ignored, and
cancelling a session id that is not pending leaves the state unchanged. -/
theorem cancelRequestToPage_spec (st : WinIpcState) (sid : Nat) (rargs : List Nat) :
    assocFind (cancelRequestToPage st sid).replyCallbacks sid = none ∧
    (∀ t : WTrace, (stepEvent t (WEvent.cancel sid)).invs = t.invs) ∧
    winReply (cancelRequestToPage st sid) sid rargs = (cancelRequestToPage st sid, []) ∧
    (assocFind st.replyCallbacks sid = none → cancelRequestToPage st sid = st) := by
  have hnone : assocFind (cancelRequestToPage st sid).replyCallbacks sid = none :=
    assocFind_erase_self _ _
  refine ⟨hnone, fun t => rfl, ?_, ?_⟩
  · simp [winReply, hnone]
  · intro h
    have herase : assocErase st.replyCallbacks sid = st.replyCallbacks :=
      assocErase_of_not_mem (not_mem_assocKeys_of_find_none h)
    simp [cancelRequestToPage, herase]

/-- C8 witness: cancelling session 0 of a window with two pending sessions
removes it, a late reply for it is ignored, and cancelling the unknown
session 7 changes nothing. -/
theorem cancelRequestToPage_witness :
    assocFind (cancelRequestToPage ⟨2, [(0, 10), (1, 11)]⟩ 0).replyCallbacks 0 = none ∧
    winReply (cancelRequestToPage ⟨2, [(0, 10), (1, 11)]⟩ 0) 0 [5] =
      (cancelRequestToPage ⟨2, [(0, 10), (1, 11)]⟩ 0, []) ∧
    (assocFind (⟨2, [(0, 10), (1, 11)]⟩ : WinIpcState).replyCallbacks 7 = none) ∧
    cancelRequestToPage ⟨2, [(0, 10), (1, 11)]⟩ 7 = ⟨2, [(0, 10), (1, 11)]⟩ :=
  ⟨(cancelRequestToPage_spec ⟨2, [(0, 10), (1, 11)]⟩ 0 [5]).1,
   (cancelRequestToPage_spec ⟨2, [(0, 10), (1, 11)]⟩ 0 [5]).2.2.1,
   by decide,
   (cancelRequestToPage_spec ⟨2, [(0, 10), (1, 11)]⟩ 7 [5]).2.2.2 (by decide)⟩

/-- C2: over any event trace of a window, each session id's stored reply
callback is invoked at most once (the invocation log mentions each session
id at most once); a reply to a pending session invokes exactly that
callback with the reply arguments and removes it; and the `closed` sweep
invokes every still-pending callback exactly once with no arguments, in
table order, before the table is cleared. -/
theorem reply_callback_once_spec (evs : List WEvent) :
    (((runEvents evs).invs.map Invocation.sid).Nodup) ∧
    (∀ (sid : Nat) (args : List Nat) (cb : Nat),
      assocFind (runEvents evs).state.replyCallbacks sid = some cb →
      (stepEvent (runEvents evs) (WEvent.reply sid args)).invs =
          (runEvents evs).invs ++ [⟨sid, cb, args⟩] ∧
        assocFind (stepEvent (runEvents evs) (WEvent.reply sid args)).state.replyCallbacks
          sid = none) ∧
    (stepEvent (runEvents evs) WEvent.closed).state.replyCallbacks = [] ∧
    (stepEvent (runEvents evs) WEvent.closed).invs =
      (runEvents evs).invs ++
        (runEvents evs).state.replyCallbacks.map (fun kv => ⟨kv.1, kv.2, []⟩) := by
  refine ⟨(winInv_runEvents evs).2.2.1, ?_, rfl, rfl⟩
  intro sid args cb hf
  constructor
  · simp [stepEvent, winReply, hf]
  · simp [stepEvent, winReply, hf, assocFind_erase_self]

/-- C2 witness: with session 0 (callback 5) pending, a reply invokes that
callback once with the reply arguments and removes the session. -/
theorem reply_callback_once_witness :
    (((runEvents [WEvent.sendReq (JsArg.str "a") [JsArg.fn 5]]).invs.map Invocation.sid).Nodup) ∧
    (assocFind (runEvents [WEvent.sendReq (JsArg.str "a") [JsArg.fn 5]]).state.replyCallbacks 0 =
      some 5) ∧
    (stepEvent (runEvents [WEvent.sendReq (JsArg.str "a") [JsArg.fn 5]])
        (WEvent.reply 0 [3])).invs =
      (runEvents [WEvent.sendReq (JsArg.str "a") [JsArg.fn 5]]).invs ++ [⟨0, 5, [3]⟩] :=
  ⟨(reply_callback_once_spec [WEvent.sendReq (JsArg.str "a") [JsArg.fn 5]]).1,
   by decide,
   ((reply_callback_once_spec [WEvent.sendReq (JsArg.str "a") [JsArg.fn 5]]).2.1
     0 [3] 5 (by decide)).1⟩

/-- C1 (modelled from the spec): a successful `load(P)` emits
`package:loaded` for `P` strictly after the whole dependency phase — the
emission list is the dependency-phase emissions followed by `P`, and `P`
itself is not among them; every declared dependency that completes loading
during that phase (and was not already loaded) is emitted there, hence
strictly before `P`; siblings are processed in declaration order, the
emissions of an earlier sibling preceding those of the later ones; and on
the `package-deps` fixture (`package-deps` → `dep-01` → `dep-02`) the
emission order is `dep-02`, `dep-01`, `package-deps`. -/
theorem package_load_order_spec (deps : String → List String) (fuel : Nat)
    (loaded : List String) (p : String)
    (h1 : p ∉ loaded)
    (h2 : p ∉ (loadDeps deps fuel loaded (deps p)).1) :
    loadPkg deps (fuel + 1) loaded p =
      (p :: (loadDeps deps fuel loaded (deps p)).1,
       (loadDeps deps fuel loaded (deps p)).2 ++ [p]) ∧
    p ∉ (loadDeps deps fuel loaded (deps p)).2 ∧
    (∀ d ∈ deps p, d ∈ (loadDeps deps fuel loaded (deps p)).1 → d ∉ loaded →
      d ∈ (loadDeps deps fuel loaded (deps p)).2) ∧
    (∀ (l : List String) (d : String) (ds : List String),
      loadDeps deps fuel l (d :: ds) =
        ((loadDeps deps fuel (loadPkg deps fuel l d).1 ds).1,
         (loadPkg deps fuel l d).2 ++ (loadDeps deps fuel (loadPkg deps fuel l d).1 ds).2)) ∧
    (loadPkg exDeps 10 [] "package-deps").2 = ["dep-02", "dep-01", "package-deps"] := by
  refine ⟨?_, ?_, ?_, fun l d ds => rfl, by decide⟩
  · simp only [loadPkg, if_neg h1]
    exact rfl
  · intro hp
    exact h2 ((mem_loadDeps_iff deps fuel loaded (deps p) p).mpr (Or.inl hp))
  · intro d _ hd hdl
    rcases (mem_loadDeps_iff deps fuel loaded (deps p) d).mp hd with h | h
    · exact h
    · exact absurd h hdl

/-- C1 witness: loading `package-deps` from an empty registry emits
`package:loaded` in the order `dep-02`, `dep-01`, `package-deps`. -/
theorem package_load_order_witness :
    ("package-deps" ∉ ([] : List String)) ∧
    ("package-deps" ∉ (loadDeps exDeps 9 [] (exDeps "package-deps")).1) ∧
    (loadPkg exDeps 10 [] "package-deps").2 = ["dep-02", "dep-01", "package-deps"] :=
  ⟨by decide, by decide,
   (package_load_order_spec exDeps 9 [] "package-deps" (by decide) (by decide)).2.2.2.2⟩

end EditorFramework
